import Mathlib

/-!
Verification of the androidscroller tile-map viewer.

Shallow embedding of the gesture/zoom state machine, the screen-to-world and
world-to-grid coordinate transforms, the tank hit-testing and selection logic,
the map-data download/fallback flow, and the CSV grid parser, translated from
app/src/main/cpp/Renderer.cpp and NetworkDownloader.cpp.  Float arithmetic is
modelled exactly over the rationals.
-/

/-! ## Pinch-zoom state machine (Renderer::handleInput, ACTION_MOVE, lines 695-724) -/

/-- The renderer state touched by a pinch-move event: the zoom level, the
reference pinch distance, and the dirty flag for the projection matrix. -/
structure PinchState where
  zoomLevel : ℚ
  lastPinchDistance : ℚ
  shaderNeedsNewProjectionMatrix : Bool
deriving DecidableEq

/-- One pinch-move event, from Renderer.cpp lines 709-724: when the stored
distance is positive, the candidate zoom is the current zoom scaled by the
distance ratio, and it is stored only when it lies inside the zoom bounds;
the newly measured distance always becomes the new reference. -/
def pinchMove (minZoom maxZoom : ℚ) (s : PinchState) (currentDistance : ℚ) : PinchState :=
  let s1 :=
    if 0 < s.lastPinchDistance then
      let scale := currentDistance / s.lastPinchDistance
      let newZoom := s.zoomLevel * scale
      if minZoom ≤ newZoom ∧ newZoom ≤ maxZoom then
        { s with zoomLevel := newZoom, shaderNeedsNewProjectionMatrix := true }
      else s
    else s
  { s1 with lastPinchDistance := currentDistance }

lemma pinchMove_zoom_bounds (minZoom maxZoom : ℚ) (s : PinchState) (d : ℚ)
    (h1 : minZoom ≤ s.zoomLevel) (h2 : s.zoomLevel ≤ maxZoom) :
    minZoom ≤ (pinchMove minZoom maxZoom s d).zoomLevel ∧
      (pinchMove minZoom maxZoom s d).zoomLevel ≤ maxZoom := by
  unfold pinchMove
  dsimp only
  split
  · split
    · next h => exact ⟨h.1, h.2⟩
    · exact ⟨h1, h2⟩
  · exact ⟨h1, h2⟩

/-- C2: starting from a zoom level inside [minZoom, maxZoom], after any
sequence of pinch-move events the stored zoom level still satisfies
minZoom ≤ zoomLevel ≤ maxZoom. -/
theorem zoomLevel_always_clamped (minZoom maxZoom : ℚ) (ds : List ℚ) (s : PinchState)
    (h1 : minZoom ≤ s.zoomLevel) (h2 : s.zoomLevel ≤ maxZoom) :
    minZoom ≤ (ds.foldl (pinchMove minZoom maxZoom) s).zoomLevel ∧
      (ds.foldl (pinchMove minZoom maxZoom) s).zoomLevel ≤ maxZoom := by
  induction ds generalizing s with
  | nil => exact ⟨h1, h2⟩
  | cons d ds ih =>
      simp only [List.foldl_cons]
      have h := pinchMove_zoom_bounds minZoom maxZoom s d h1 h2
      exact ih (pinchMove minZoom maxZoom s d) h.1 h.2

/-- Witness for C2 at concrete inputs. -/
theorem zoomLevel_always_clamped_witness :
    ((1 : ℚ)/2 ≤ 1 ∧ (1 : ℚ) ≤ 3) ∧
      ((1 : ℚ)/2 ≤ (([150, 90, 1000] : List ℚ).foldl
          (pinchMove (1/2) 3) ⟨1, 100, false⟩).zoomLevel ∧
        (([150, 90, 1000] : List ℚ).foldl
          (pinchMove (1/2) 3) ⟨1, 100, false⟩).zoomLevel ≤ 3) :=
  ⟨⟨by norm_num, by norm_num⟩,
    zoomLevel_always_clamped (1/2) 3 [150, 90, 1000] ⟨1, 100, false⟩
      (by norm_num) (by norm_num)⟩

/-- C3 counterexample: with zoom 2, reference distance 100 and new distance
200, the candidate zoom is 4, above maxZoom = 3, yet the stored zoom does not
become 3: the out-of-range candidate is rejected, leaving the zoom at 2. -/
theorem pinch_overshoot_not_clamped_cex :
    (pinchMove (1/2) 3 ⟨2, 100, false⟩ 200).zoomLevel ≠ 3 := by
  unfold pinchMove
  norm_num

/-- C3 (amended): when a pinch-move event computes a candidate zoom above
maxZoom, the stored zoom level is left unchanged — the whole out-of-range
update is discarded rather than clamped to the bound. -/
theorem pinch_overshoot_discarded (minZoom maxZoom : ℚ) (s : PinchState) (d : ℚ)
    (hd : 0 < s.lastPinchDistance)
    (hover : maxZoom < s.zoomLevel * (d / s.lastPinchDistance)) :
    (pinchMove minZoom maxZoom s d).zoomLevel = s.zoomLevel := by
  unfold pinchMove
  dsimp only
  rw [if_pos hd, if_neg]
  intro hcon
  exact absurd hcon.2 (not_le.mpr hover)

/-- Witness for the amended C3 at concrete inputs. -/
theorem pinch_overshoot_discarded_witness :
    ((0 : ℚ) < 100 ∧ (3 : ℚ) < 2 * (200 / 100)) ∧
      (pinchMove (1/2) 3 ⟨2, 100, false⟩ 200).zoomLevel = 2 :=
  ⟨⟨by norm_num, by norm_num⟩,
    pinch_overshoot_discarded (1/2) 3 ⟨2, 100, false⟩ 200 (by norm_num) (by norm_num)⟩

/-- C8: a pinch-move with reference distance 100, measured distance 150,
zoom 1 and bounds [0.5, 3] stores zoom exactly 3/2, marks the projection
matrix dirty, and stores 150 as the new reference distance. -/
theorem pinch_scenario_100_to_150 :
    (pinchMove (1/2) 3 ⟨1, 100, false⟩ 150).zoomLevel = 3/2 ∧
      (pinchMove (1/2) 3 ⟨1, 100, false⟩ 150).shaderNeedsNewProjectionMatrix = true ∧
      (pinchMove (1/2) 3 ⟨1, 100, false⟩ 150).lastPinchDistance = 150 := by
  unfold pinchMove
  norm_num

/-- C10: when the stored reference distance is not strictly positive, a
pinch-move leaves the zoom level and the dirty flag unchanged (the branch
containing the distance-ratio division is never entered), while the newly
measured distance is still stored as the next reference. -/
theorem pinch_nonpositive_reference_safe (minZoom maxZoom : ℚ) (s : PinchState) (d : ℚ)
    (h : s.lastPinchDistance ≤ 0) :
    (pinchMove minZoom maxZoom s d).zoomLevel = s.zoomLevel ∧
      (pinchMove minZoom maxZoom s d).shaderNeedsNewProjectionMatrix =
        s.shaderNeedsNewProjectionMatrix ∧
      (pinchMove minZoom maxZoom s d).lastPinchDistance = d := by
  unfold pinchMove
  dsimp only
  rw [if_neg (not_lt.mpr h)]
  exact ⟨rfl, rfl, rfl⟩

/-- Witness for C10 at concrete inputs. -/
theorem pinch_nonpositive_reference_safe_witness :
    ((0 : ℚ) ≤ 0) ∧
      ((pinchMove (1/2) 3 ⟨1, 0, false⟩ 80).zoomLevel = 1 ∧
        (pinchMove (1/2) 3 ⟨1, 0, false⟩ 80).shaderNeedsNewProjectionMatrix = false ∧
        (pinchMove (1/2) 3 ⟨1, 0, false⟩ 80).lastPinchDistance = 80) :=
  ⟨by norm_num, pinch_nonpositive_reference_safe (1/2) 3 ⟨1, 0, false⟩ 80 (by norm_num)⟩

/-! ## Screen-to-world conversion (Renderer::convertScreenToWorld, lines 1082-1093) -/

/-- The fixed orthographic half-height at zoom 1 (Renderer.cpp line 105). -/
def kProjectionHalfHeight : ℚ := 2

/-- Renderer::convertScreenToWorld, translated literally: aspect ratio,
zoomed half extents, then normalized-device scaling with a flipped Y axis. -/
def convertScreenToWorld (width height zoomLevel : ℚ) (screenX screenY : ℚ) : ℚ × ℚ :=
  let aspect := width / height
  let zoomedHalfHeight := kProjectionHalfHeight / zoomLevel
  let zoomedHalfWidth := zoomedHalfHeight * aspect
  let normalizedX := ((screenX / width) * 2 - 1) * zoomedHalfWidth
  let normalizedY := -(((screenY / height) * 2 - 1) * zoomedHalfHeight)
  (normalizedX, normalizedY)

/-- The screen-to-world formula exactly as the specification states it. -/
def screenToWorldSpec (sx sy Wpx Hpx z : ℚ) : ℚ × ℚ :=
  (((sx / Wpx) * 2 - 1) * ((2 / z) * (Wpx / Hpx)),
    -(((sy / Hpx) * 2 - 1) * (2 / z)))

/-- C9: for every screen position, viewport with positive height and positive
zoom, the screen-to-world conversion of the code returns exactly the spec
formula: half-height 2/zoom, half-width scaled by the aspect ratio, Y flipped. -/
theorem convertScreenToWorld_matches_spec (sx sy Wpx Hpx z : ℚ)
    (_hH : 0 < Hpx) (_hz : 0 < z) :
    convertScreenToWorld Wpx Hpx z sx sy = screenToWorldSpec sx sy Wpx Hpx z := by
  unfold convertScreenToWorld screenToWorldSpec kProjectionHalfHeight
  refine Prod.ext ?_ ?_ <;> dsimp only

/-- Witness for C9 at concrete inputs. -/
theorem convertScreenToWorld_matches_spec_witness :
    ((0 : ℚ) < 1920 ∧ (0 : ℚ) < 2) ∧
      convertScreenToWorld 1080 1920 2 270 480 = screenToWorldSpec 270 480 1080 1920 2 :=
  ⟨⟨by norm_num, by norm_num⟩,
    convertScreenToWorld_matches_spec 270 480 1080 1920 2 (by norm_num) (by norm_num)⟩

/-! ## Grid geometry and world-to-grid conversion
(Renderer::createColoredGrid lines 422-426 and 472-474,
Renderer::checkTankSelection lines 913-936) -/

/-- The grid cell pitch, 0.4f in createColoredGrid and checkTankSelection. -/
def gridSpacing : ℚ := 2/5

/-- Half the total grid size: gridSize * gridSpacing * 0.5f. -/
def gridExtent (gridSize : ℤ) : ℚ := (gridSize : ℚ) * gridSpacing * (1/2)

/-- The character grid delivered by NetworkDownloader: width, height, and a
row-major cell array (NetworkDownloader.h MapData). -/
structure MapData where
  width : ℤ
  height : ℤ
  data : List Char
deriving DecidableEq

/-- gridSize as computed when map data is loaded: max(width, height). -/
def gridSizeOf (md : MapData) : ℤ := max md.width md.height

/-- C++ round(): round half away from zero, then truncate to int (the value
is already integral after rounding). -/
def cppRound (q : ℚ) : ℤ := if 0 ≤ q then ⌊q + 1/2⌋ else ⌈q - 1/2⌉

lemma cppRound_intCast (n : ℤ) : cppRound (n : ℚ) = n := by
  unfold cppRound
  split
  · rw [Int.floor_int_add]
    norm_num
  · rw [show ((n : ℚ) - 1/2) = (-(1/2) : ℚ) + (n : ℚ) by ring, Int.ceil_add_int]
    norm_num

/-- The x part of the world-to-grid conversion in checkTankSelection:
subtract the scroll, invert the cell-centering formula, round. -/
def worldToGridX (md : MapData) (scrollX wx : ℚ) : ℤ :=
  cppRound (((wx - scrollX) + gridExtent (gridSizeOf md)) / gridSpacing - 1/2)

/-- The y part of the world-to-grid conversion in checkTankSelection. -/
def worldToGridY (md : MapData) (scrollY wy : ℚ) : ℤ :=
  cppRound ((gridExtent (gridSizeOf md) - (wy - scrollY)) / gridSpacing - 1/2)

/-- Cell-center world x coordinate from createColoredGrid line 473. -/
def cellCenterX (md : MapData) (x : ℤ) : ℚ :=
  -(gridExtent (gridSizeOf md)) + ((x : ℚ) + 1/2) * gridSpacing

/-- Cell-center world y coordinate from createColoredGrid line 474. -/
def cellCenterY (md : MapData) (y : ℤ) : ℚ :=
  gridExtent (gridSizeOf md) - ((y : ℚ) + 1/2) * gridSpacing

/-- C1: with scroll (0,0), the world-to-grid conversion used by tank
hit-testing, applied to the cell-center world coordinates produced by grid
construction, returns exactly the original grid position for every cell
inside the grid bounds. -/
theorem cellCenter_roundTrip (md : MapData) (x y : ℤ)
    (_hx0 : 0 ≤ x) (_hxW : x < md.width) (_hy0 : 0 ≤ y) (_hyH : y < md.height) :
    worldToGridX md 0 (cellCenterX md x) = x ∧
      worldToGridY md 0 (cellCenterY md y) = y := by
  constructor
  · unfold worldToGridX cellCenterX
    rw [show (-(gridExtent (gridSizeOf md)) + ((x : ℚ) + 1/2) * gridSpacing - 0 +
          gridExtent (gridSizeOf md)) / gridSpacing - 1/2 = (x : ℚ) by
        unfold gridSpacing
        field_simp]
    exact cppRound_intCast x
  · unfold worldToGridY cellCenterY
    rw [show (gridExtent (gridSizeOf md) -
          (gridExtent (gridSizeOf md) - ((y : ℚ) + 1/2) * gridSpacing - 0)) / gridSpacing -
          1/2 = (y : ℚ) by
        unfold gridSpacing
        field_simp]
    exact cppRound_intCast y

/-- Witness for C1 at a concrete grid position of a concrete map. -/
theorem cellCenter_roundTrip_witness :
    ((0 : ℤ) ≤ 2 ∧ (2 : ℤ) < 10 ∧ (0 : ℤ) ≤ 7 ∧ (7 : ℤ) < 10) ∧
      (worldToGridX ⟨10, 10, []⟩ 0 (cellCenterX ⟨10, 10, []⟩ 2) = 2 ∧
        worldToGridY ⟨10, 10, []⟩ 0 (cellCenterY ⟨10, 10, []⟩ 7) = 7) :=
  ⟨⟨by norm_num, by norm_num, by norm_num, by norm_num⟩,
    cellCenter_roundTrip ⟨10, 10, []⟩ 2 7
      (by norm_num) (by norm_num) (by norm_num) (by norm_num)⟩

/-! ## Tank selection (Renderer::checkTankSelection lines 913-990,
Renderer::createHighlightOverlay lines 992-1047) -/

/-- A colored vertex: position and RGB color, as in Model.h. -/
structure Vertex where
  px : ℚ
  py : ℚ
  pz : ℚ
  r : ℚ
  g : ℚ
  b : ℚ
deriving DecidableEq

/-- A line/triangle model: a vertex list plus an index list. -/
structure Model where
  vertices : List Vertex
  indices : List ℕ
deriving DecidableEq

/-- The renderer state read and written by checkTankSelection. -/
structure RenderState where
  mapDataLoaded : Bool
  mapData : MapData
  scrollX : ℚ
  scrollY : ℚ
  selectedTankX : ℤ
  selectedTankY : ℤ
  hasTankSelected : Bool
  highlightModels : List Model
deriving DecidableEq

/-- The cell character the code reads at mapData_.data[gy * width + gx]. -/
def cellCharAt (md : MapData) (gx gy : ℤ) : Char :=
  md.data.getD (gy * md.width + gx).toNat ' '

/-- The bounds check of checkTankSelection line 949. -/
def inGridBounds (md : MapData) (gx gy : ℤ) : Prop :=
  0 ≤ gx ∧ gx < md.width ∧ 0 ≤ gy ∧ gy < md.height

instance (md : MapData) (gx gy : ℤ) : Decidable (inGridBounds md gx gy) :=
  inferInstanceAs (Decidable (0 ≤ gx ∧ gx < md.width ∧ 0 ≤ gy ∧ gy < md.height))

/-- Renderer::createHighlightOverlay: when no tank is selected the overlay
batch is cleared; otherwise a single outline model is built around the
selected cell center, 10% larger than a cell, at depth 0.01. -/
def createHighlightOverlay (s : RenderState) : RenderState :=
  if ¬ s.hasTankSelected then { s with highlightModels := [] }
  else
    let e := gridExtent (gridSizeOf s.mapData)
    let cellSize := gridSpacing * (8/10)
    let cellX := -e + ((s.selectedTankX : ℚ) + 1/2) * gridSpacing
    let cellY := e - ((s.selectedTankY : ℚ) + 1/2) * gridSpacing
    let highlightSize := cellSize * (11/10)
    let hv : List Vertex :=
      [⟨cellX - highlightSize/2, cellY + highlightSize/2, 1/100, 1, 0, 0⟩,
        ⟨cellX + highlightSize/2, cellY + highlightSize/2, 1/100, 1, 0, 0⟩,
        ⟨cellX + highlightSize/2, cellY - highlightSize/2, 1/100, 1, 0, 0⟩,
        ⟨cellX - highlightSize/2, cellY - highlightSize/2, 1/100, 1, 0, 0⟩]
    let hi : List ℕ := [0, 1, 1, 2, 2, 3, 3, 0]
    { s with highlightModels := [⟨hv, hi⟩] }

/-- Renderer::checkTankSelection: no-op without map data; otherwise convert
the (scroll-adjusted) world position to a grid cell, and either select the
resident tank and rebuild the highlight overlay, or clear the selection and
the overlay. -/
def checkTankSelection (s : RenderState) (worldX worldY : ℚ) : RenderState :=
  if ¬ s.mapDataLoaded then s
  else
    let gx := worldToGridX s.mapData s.scrollX worldX
    let gy := worldToGridY s.mapData s.scrollY worldY
    if inGridBounds s.mapData gx gy then
      let cellType := cellCharAt s.mapData gx gy
      if cellType = 'x' ∨ cellType = 'X' then
        createHighlightOverlay
          { s with selectedTankX := gx, selectedTankY := gy, hasTankSelected := true }
      else { s with hasTankSelected := false, highlightModels := [] }
    else { s with hasTankSelected := false, highlightModels := [] }

/-- C4: with map data loaded, a tap whose world coordinates convert to an
out-of-bounds grid position, or to an in-bounds position whose resident cell
is not a tank cell, always leaves hasTankSelected false and the highlight
batch empty, regardless of the prior selection state. -/
theorem nonTank_or_outOfBounds_clears_selection (s : RenderState) (wx wy : ℚ)
    (hld : s.mapDataLoaded = true)
    (h : ¬ inGridBounds s.mapData (worldToGridX s.mapData s.scrollX wx)
          (worldToGridY s.mapData s.scrollY wy) ∨
        (cellCharAt s.mapData (worldToGridX s.mapData s.scrollX wx)
            (worldToGridY s.mapData s.scrollY wy) ≠ 'x' ∧
          cellCharAt s.mapData (worldToGridX s.mapData s.scrollX wx)
            (worldToGridY s.mapData s.scrollY wy) ≠ 'X')) :
    (checkTankSelection s wx wy).hasTankSelected = false ∧
      (checkTankSelection s wx wy).highlightModels = [] := by
  unfold checkTankSelection
  simp only [hld, not_true, ite_false]
  rcases h with hoob | ⟨hx, hX⟩
  · rw [if_neg hoob]
    exact ⟨rfl, rfl⟩
  · by_cases hb : inGridBounds s.mapData (worldToGridX s.mapData s.scrollX wx)
        (worldToGridY s.mapData s.scrollY wy)
    · rw [if_pos hb, if_neg]
      · exact ⟨rfl, rfl⟩
      · rintro (h1 | h2)
        · exact hx h1
        · exact hX h2
    · rw [if_neg hb]
      exact ⟨rfl, rfl⟩

/-- A concrete loaded state with a prior selection, over a 1x1 map whose only
cell is an object cell. -/
def demoSelState : RenderState :=
  { mapDataLoaded := true
    mapData := ⟨1, 1, ['o']⟩
    scrollX := 0
    scrollY := 0
    selectedTankX := 0
    selectedTankY := 0
    hasTankSelected := true
    highlightModels := [⟨[], []⟩] }

lemma demoSelState_grid_eval :
    worldToGridX demoSelState.mapData demoSelState.scrollX 0 = 0 ∧
      worldToGridY demoSelState.mapData demoSelState.scrollY 0 = 0 := by
  unfold demoSelState worldToGridX worldToGridY gridExtent gridSizeOf gridSpacing cppRound
  norm_num

lemma demoSelState_hyp :
    ¬ inGridBounds demoSelState.mapData
        (worldToGridX demoSelState.mapData demoSelState.scrollX 0)
        (worldToGridY demoSelState.mapData demoSelState.scrollY 0) ∨
      (cellCharAt demoSelState.mapData
            (worldToGridX demoSelState.mapData demoSelState.scrollX 0)
            (worldToGridY demoSelState.mapData demoSelState.scrollY 0) ≠ 'x' ∧
        cellCharAt demoSelState.mapData
            (worldToGridX demoSelState.mapData demoSelState.scrollX 0)
            (worldToGridY demoSelState.mapData demoSelState.scrollY 0) ≠ 'X') := by
  right
  rw [demoSelState_grid_eval.1, demoSelState_grid_eval.2]
  exact ⟨by decide, by decide⟩

/-- Witness for C4: tapping the object cell of the demo state clears the
prior selection and empties the highlight batch. -/
theorem nonTank_or_outOfBounds_clears_selection_witness :
    (demoSelState.mapDataLoaded = true ∧
      (¬ inGridBounds demoSelState.mapData
            (worldToGridX demoSelState.mapData demoSelState.scrollX 0)
            (worldToGridY demoSelState.mapData demoSelState.scrollY 0) ∨
        (cellCharAt demoSelState.mapData
              (worldToGridX demoSelState.mapData demoSelState.scrollX 0)
              (worldToGridY demoSelState.mapData demoSelState.scrollY 0) ≠ 'x' ∧
          cellCharAt demoSelState.mapData
              (worldToGridX demoSelState.mapData demoSelState.scrollX 0)
              (worldToGridY demoSelState.mapData demoSelState.scrollY 0) ≠ 'X'))) ∧
      ((checkTankSelection demoSelState 0 0).hasTankSelected = false ∧
        (checkTankSelection demoSelState 0 0).highlightModels = []) :=
  ⟨⟨rfl, demoSelState_hyp⟩,
    nonTank_or_outOfBounds_clears_selection demoSelState 0 0 rfl demoSelState_hyp⟩

/-! ## Map download and fallback (Renderer::downloadMapData lines 340-392,
Renderer::createFallbackMapData lines 394-420,
Renderer::decodePNGToTexture lines 783-891) -/

/-- The renderer state touched by the download flow. -/
structure DownloadState where
  mapData : MapData
  mapDataLoaded : Bool
  tankImageData : List UInt8
  tankTextureLoaded : Bool
deriving DecidableEq

/-- The fixed 10x10 fallback map written by createFallbackMapData. -/
def fallbackMapData : MapData :=
  ⟨10, 10,
    ("xx x     x" ++
     "  oo  x   " ++
     "     x    " ++
     "       x  " ++
     "          " ++
     "        x " ++
     "       x  " ++
     "          " ++
     "   x      " ++
     "    x     ").toList⟩

/-- Renderer::createFallbackMapData: replace the grid wholesale with the
fallback map and mark map data loaded. -/
def createFallbackMapData (s : DownloadState) : DownloadState :=
  { s with mapData := fallbackMapData, mapDataLoaded := true }

/-- Renderer::decodePNGToTexture: fails on empty image data, otherwise the
platform decoder (an oracle here) decides success; on success the tank
texture is marked loaded, on failure the state is untouched. -/
def decodePNGToTexture (decodeOk : Bool) (s : DownloadState) : DownloadState × Bool :=
  if s.tankImageData = [] then (s, false)
  else if decodeOk then ({ s with tankTextureLoaded := true }, true)
  else (s, false)

/-- Renderer::downloadMapData, with the two network fetches and the platform
image decoder as oracles: on JSON success the downloaded grid is stored; then
on image-download success the bytes are stored and decoded (a decode failure
only logs) and map data is marked loaded; on image-download failure, and on
JSON failure, the fallback map replaces the grid. -/
def downloadMapData (jsonResult : Option MapData) (imageResult : Option (List UInt8))
    (decodeOk : Bool) (s : DownloadState) : DownloadState :=
  match jsonResult with
  | some md =>
      let s1 := { s with mapData := md }
      match imageResult with
      | some bytes =>
          let s2 := { s1 with tankImageData := bytes }
          let s3 := (decodePNGToTexture decodeOk s2).1
          { s3 with mapDataLoaded := true }
      | none => createFallbackMapData s1
  | none => createFallbackMapData s

/-- A concrete 2x2 grid standing for a successful map fetch. -/
def sampleMapData : MapData := ⟨2, 2, ['x', 'o', ' ', ' ']⟩

/-- The download state before downloadMapData runs (initRenderer defaults). -/
def initialDownloadState : DownloadState := ⟨⟨0, 0, []⟩, false, [], false⟩

/-- C5 counterexample: with the map JSON fetched successfully but the tank
image download failing, the fetched grid is not kept — createFallbackMapData
replaces it with the fallback map. -/
theorem image_download_failure_replaces_grid_cex :
    (downloadMapData (some sampleMapData) none true initialDownloadState).mapData ≠
      sampleMapData := by decide

/-- C5 (amended): when the map grid is fetched successfully and the tank
image bytes are downloaded but fail to decode, only the textured pass stays
disabled (the tank texture is not marked loaded): the fetched grid is kept
and map data is marked loaded, so the grid is rendered from it. -/
theorem decode_failure_keeps_grid (md : MapData) (bytes : List UInt8) (s : DownloadState) :
    (downloadMapData (some md) (some bytes) false s).mapData = md ∧
      (downloadMapData (some md) (some bytes) false s).mapDataLoaded = true ∧
      (downloadMapData (some md) (some bytes) false s).tankTextureLoaded =
        s.tankTextureLoaded := by
  unfold downloadMapData decodePNGToTexture
  dsimp only
  split
  · exact ⟨rfl, rfl, rfl⟩
  · exact ⟨rfl, rfl, rfl⟩

/-! ## Grid parsing (NetworkDownloader::parseCSVData) and cell
classification (Renderer::createColoredGrid switch, spec GridCell) -/

/-- The cell classification of the specification data model, derived from
the character switch in createColoredGrid lines 448-470 (tank, object and
team characters); the code renders the Empty blank and unmapped characters
identically, the spec keeps them as distinct Empty and Unknown variants. -/
inductive GridCell where
  | empty
  | tank
  | object
  | team1
  | team2
  | team3
  | unknown
deriving DecidableEq

/-- Character-to-cell classification. -/
def classify (c : Char) : GridCell :=
  if c = 'x' ∨ c = 'X' then .tank
  else if c = 'o' ∨ c = 'O' then .object
  else if c = '1' then .team1
  else if c = '2' then .team2
  else if c = '3' then .team3
  else if c = ' ' then .empty
  else .unknown

/-- The whitespace set trimmed by parseCSVData: space, tab, CR, LF. -/
def isTrimmed (c : Char) : Bool := c = ' ' || c = '\t' || c = '\r' || c = '\n'

/-- cell.erase of leading and trailing whitespace. -/
def trimChars (s : List Char) : List Char :=
  ((s.dropWhile isTrimmed).reverse.dropWhile isTrimmed).reverse

/-- The comma-splitting loop of parseCSVData: repeated
std::getline(lineStream, cell, ',').  A getline that reaches end of input
right after a delimiter fails, so a trailing comma yields no extra field. -/
def getCellsAux : List Char → List Char → List (List Char)
  | [], acc => [acc.reverse]
  | c :: rest, acc =>
      if c = ',' then
        match rest with
        | [] => [acc.reverse]
        | _ => acc.reverse :: getCellsAux rest []
      else getCellsAux rest (c :: acc)

/-- The character stored for one comma-separated cell: the first character
of the trimmed cell, or a blank when the trimmed cell is empty. -/
def cellChar (cell : List Char) : Char :=
  match trimChars cell with
  | [] => ' '
  | c :: _ => c

/-- The per-line row of parseCSVData: one character per comma-separated
cell (the inner while loop produces no cell for an empty line). -/
def parseRow (line : List Char) : List Char :=
  match line with
  | [] => []
  | _ => (getCellsAux line []).map cellChar

/-- The rows parseCSVData accumulates: empty lines are skipped, every
remaining line is parsed into its row. -/
def parsedRows (lines : List (List Char)) : List (List Char) :=
  (lines.filter (fun l => l ≠ [])).map parseRow

/-- NetworkDownloader::parseCSVData on the sequence of input lines: collect
the rows of non-empty lines (dropping any empty row), take the maximal row
length as the width, pad every shorter row with blanks, and store the grid
row-major. -/
def parseCSVData (lines : List (List Char)) : MapData :=
  let rows := (parsedRows lines).filter (fun r => r ≠ [])
  let maxWidth : ℕ := rows.foldl (fun m r => max m r.length) 0
  { width := (maxWidth : ℤ)
    height := (rows.length : ℤ)
    data := rows.flatMap (fun r => r ++ List.replicate (maxWidth - r.length) ' ') }

/-- The CSV transport of the two-row character grid with rows "xo" and two
blanks: each row of characters travels as comma-separated cells. -/
def gridXOLines : List (List Char) := [['x', ',', 'o'], [' ', ',', ' ']]

/-- C7: loading the two-row grid with rows "xo" and "  " yields a 2x2 grid
holding a tank cell at (0,0), an object cell at (1,0) and empty cells at
(0,1) and (1,1). -/
theorem load_xo_grid :
    (parseCSVData gridXOLines).width = 2 ∧
      (parseCSVData gridXOLines).height = 2 ∧
      classify (cellCharAt (parseCSVData gridXOLines) 0 0) = GridCell.tank ∧
      classify (cellCharAt (parseCSVData gridXOLines) 1 0) = GridCell.object ∧
      classify (cellCharAt (parseCSVData gridXOLines) 0 1) = GridCell.empty ∧
      classify (cellCharAt (parseCSVData gridXOLines) 1 1) = GridCell.empty := by
  decide

lemma getCellsAux_ne_nil (s : List Char) : ∀ acc : List Char, getCellsAux s acc ≠ [] := by
  induction s with
  | nil =>
      intro acc
      simp [getCellsAux]
  | cons c rest ih =>
      intro acc
      unfold getCellsAux
      split
      · cases rest with
        | nil => simp
        | cons d ds => simp
      · exact ih (c :: acc)

lemma parseRow_ne_nil (l : List Char) (h : l ≠ []) : parseRow l ≠ [] := by
  cases l with
  | nil => exact absurd rfl h
  | cons c rest =>
      unfold parseRow
      simp [getCellsAux_ne_nil]

lemma parsedRows_filter (lines : List (List Char)) :
    (parsedRows lines).filter (fun r => r ≠ []) = parsedRows lines := by
  apply List.filter_eq_self.mpr
  intro r hr
  obtain ⟨l, hl, rfl⟩ := List.mem_map.mp hr
  have hlne : l ≠ [] := by simpa using (List.mem_filter.mp hl).2
  simpa using parseRow_ne_nil l hlne

lemma foldl_maxlen_init_le (rows : List (List Char)) : ∀ a : ℕ,
    a ≤ rows.foldl (fun m q => max m q.length) a := by
  induction rows with
  | nil => intro a; exact le_refl a
  | cons r rs ih =>
      intro a
      simp only [List.foldl_cons]
      exact le_trans (le_max_left a r.length) (ih (max a r.length))

lemma mem_le_foldl_maxlen (rows : List (List Char)) (r : List Char) :
    r ∈ rows → ∀ a : ℕ, r.length ≤ rows.foldl (fun m q => max m q.length) a := by
  induction rows with
  | nil => intro hr; cases hr
  | cons r0 rs ih =>
      intro hr a
      simp only [List.foldl_cons]
      rcases List.mem_cons.mp hr with h | h
      · subst h
        exact le_trans (le_max_right a r.length) (foldl_maxlen_init_le rs _)
      · exact ih h _

lemma foldl_maxlen_attained (rows : List (List Char)) : ∀ a : ℕ,
    rows.foldl (fun m q => max m q.length) a = a ∨
      ∃ r ∈ rows, rows.foldl (fun m q => max m q.length) a = r.length := by
  induction rows with
  | nil => intro a; exact Or.inl rfl
  | cons r0 rs ih =>
      intro a
      simp only [List.foldl_cons]
      rcases ih (max a r0.length) with h | ⟨r, hr, h⟩
      · rcases max_choice a r0.length with hm | hm
        · exact Or.inl (by rw [h, hm])
        · exact Or.inr ⟨r0, List.mem_cons_self r0 rs, by rw [h, hm]⟩
      · exact Or.inr ⟨r, List.mem_cons_of_mem r0 hr, h⟩

lemma map_sum_const_of_mem (l : List (List Char)) (f : List Char → ℕ) (k : ℕ)
    (h : ∀ r ∈ l, f r = k) : (l.map f).sum = l.length * k := by
  induction l with
  | nil => simp
  | cons r rs ih =>
      simp only [List.map_cons, List.sum_cons, List.length_cons]
      rw [h r (List.mem_cons_self r rs), ih (fun q hq => h q (List.mem_cons_of_mem r hq))]
      ring

lemma getD_flatMap_padded (W : ℕ) (rows : List (List Char)) :
    (∀ r ∈ rows, r.length ≤ W) →
    ∀ (y x : ℕ), y < rows.length → x < W → ∀ d : Char,
      (rows.flatMap (fun r => r ++ List.replicate (W - r.length) ' ')).getD
          (y * W + x) d =
        if x < (rows.getD y []).length then (rows.getD y []).getD x d else ' ' := by
  induction rows with
  | nil =>
      intro _ y x hy
      exact absurd hy (Nat.not_lt_zero y)
  | cons r rs ih =>
      intro hW y x hy hx d
      have hrW : r.length ≤ W := hW r (List.mem_cons_self r rs)
      have hpadlen : (r ++ List.replicate (W - r.length) ' ').length = W := by
        simp only [List.length_append, List.length_replicate]
        omega
      cases y with
      | zero =>
          simp only [List.flatMap_cons, Nat.zero_mul, Nat.zero_add, List.getD_cons_zero]
          rw [List.getD_append _ _ _ _ (by rw [hpadlen]; exact hx)]
          by_cases hxr : x < r.length
          · rw [if_pos hxr, List.getD_append _ _ _ _ hxr]
          · rw [if_neg hxr, List.getD_append_right _ _ _ _ (Nat.le_of_not_lt hxr)]
            have hb : x - r.length < W - r.length := by omega
            rw [List.getD_eq_getElem _ _ (by simpa using hb)]
            exact List.getElem_replicate _ _
      | succ y1 =>
          simp only [List.flatMap_cons, List.getD_cons_succ]
          have hidx : Nat.succ y1 * W + x =
              (r ++ List.replicate (W - r.length) ' ').length + (y1 * W + x) := by
            rw [hpadlen, Nat.succ_mul]
            ring
          rw [hidx, List.getD_append_right _ _ _ _ (Nat.le_add_right _ _),
            Nat.add_sub_cancel_left]
          exact ih (fun q hq => hW q (List.mem_cons_of_mem r hq)) y1 x
            (Nat.lt_of_succ_lt_succ hy) hx d

lemma parseCSVData_eq (lines : List (List Char)) :
    parseCSVData lines =
      { width := ((((parsedRows lines).filter (fun r => r ≠ [])).foldl
            (fun m q => max m q.length) 0 : ℕ) : ℤ)
        height := ((((parsedRows lines).filter (fun r => r ≠ [])).length : ℕ) : ℤ)
        data := ((parsedRows lines).filter (fun r => r ≠ [])).flatMap
          (fun r => r ++ List.replicate
            ((((parsedRows lines).filter (fun q => q ≠ [])).foldl
              (fun m q => max m q.length) 0) - r.length) ' ') } := rfl

/-- C6: parseCSVData always yields a rectangular grid: the height is the
number of non-empty input rows, the data holds exactly width*height cells,
the width is the maximal parsed row length, and every position (x,y) holds
its row entry when the row reaches x and a padding blank otherwise. -/
theorem parseCSVData_normalizes (lines : List (List Char)) :
    (parseCSVData lines).height = ((lines.filter (fun l => l ≠ [])).length : ℤ) ∧
      ((parseCSVData lines).data.length : ℤ) =
        (parseCSVData lines).width * (parseCSVData lines).height ∧
      (∀ r ∈ parsedRows lines, (r.length : ℤ) ≤ (parseCSVData lines).width) ∧
      (parsedRows lines ≠ [] →
        ∃ r ∈ parsedRows lines, (r.length : ℤ) = (parseCSVData lines).width) ∧
      (∀ y x : ℕ, (y : ℤ) < (parseCSVData lines).height →
        (x : ℤ) < (parseCSVData lines).width →
        (parseCSVData lines).data.getD (y * (parseCSVData lines).width.toNat + x) 'Z' =
          if x < ((parsedRows lines).getD y []).length
          then ((parsedRows lines).getD y []).getD x 'Z' else ' ') := by
  have hfe := parsedRows_filter lines
  rw [parseCSVData_eq lines, hfe]
  dsimp only
  set rows := parsedRows lines with hrows
  set W : ℕ := rows.foldl (fun m q => max m q.length) 0 with hWdef
  have hWle : ∀ r ∈ rows, r.length ≤ W := fun r hr => mem_le_foldl_maxlen rows r hr 0
  refine ⟨?_, ?_, ?_, ?_, ?_⟩
  · rw [hrows]
    unfold parsedRows
    rw [List.length_map]
  · have hlen : (rows.flatMap (fun r => r ++ List.replicate (W - r.length) ' ')).length =
        rows.length * W := by
      rw [List.length_flatMap]
      exact map_sum_const_of_mem rows _ W (fun r hr => by
        show (r ++ List.replicate (W - r.length) ' ').length = W
        have := hWle r hr
        rw [List.length_append, List.length_replicate]
        omega)
    push_cast [hlen]
    ring
  · intro r hr
    exact_mod_cast hWle r hr
  · intro hne
    have hatt := foldl_maxlen_attained rows 0
    rw [← hWdef] at hatt
    rcases hatt with h0 | ⟨r, hr, h⟩
    · cases hrw : rows with
      | nil => exact absurd hrw hne
      | cons r0 rs =>
          refine ⟨r0, List.mem_cons_self r0 rs, ?_⟩
          have h1 := hWle r0 (by rw [hrw]; exact List.mem_cons_self r0 rs)
          have : r0.length = W := by omega
          exact_mod_cast this
    · exact ⟨r, hr, by exact_mod_cast h.symm⟩
  · intro y x hy hx
    have hyR : y < rows.length := by exact_mod_cast hy
    have hxW : x < W := by exact_mod_cast hx
    rw [Int.toNat_natCast]
    exact getD_flatMap_padded W rows hWle y x hyR hxW 'Z'

/-- Three input lines of unequal length, the middle one empty. -/
def demoLines : List (List Char) := [['x'], [], ['a', ',', 'b']]

/-- Witness for C6 at concrete unequal-length input lines. -/
theorem parseCSVData_normalizes_witness :
    ((parseCSVData demoLines).height = ((demoLines.filter (fun l => l ≠ [])).length : ℤ)) ∧
      (parseCSVData demoLines).data.getD
        (0 * (parseCSVData demoLines).width.toNat + 1) 'Z' = ' ' :=
  ⟨(parseCSVData_normalizes demoLines).1, by
    have h := (parseCSVData_normalizes demoLines).2.2.2.2 0 1 (by decide) (by decide)
    rw [show (if (1 : ℕ) < ((parsedRows demoLines).getD 0 []).length
        then ((parsedRows demoLines).getD 0 []).getD 1 'Z' else ' ') = ' '
      by decide] at h
    exact h⟩
